import Mathlib

/-!
Verification of the SASS-AST operand classifier and instruction/statement
parsers of `sass_isa_ast` (files `ast.py` and `sass_ast.py`).

Strings are embedded as `List Char`.  Python exceptions are embedded as the
`PyErr` error type of an `Except` monad.  The two near-duplicate modules are
embedded in the namespaces `PyAst` (for `ast.py`) and `PySass`
(for `sass_ast.py`); the regular-expression patterns, which are literally
identical in the two files, are shared definitions.

Functions whose Python originals scan a string with non-structural steps
(`str.replace`, the guard-stripping `re.sub`) are embedded with an explicit
step budget ("fuel") so that every definition is structurally recursive and
kernel-reducible; the budget is the string length, which each scanning step
strictly decreases, and the wrapper definitions always supply enough of it.
-/

/-- Python `\s` for the ASCII range: the whitespace characters recognised by
`str.split()` and the `re` module on the inputs at hand. -/
def isWs (c : Char) : Bool :=
  c = ' ' || c = '\t' || c = '\n' || c = '\r' || c = '\x0b' || c = '\x0c'

/-- Python `\w`: letters, digits and underscore (ASCII range). -/
def isWordC (c : Char) : Bool :=
  c.isAlphanum || c = '_'

/-- `leadsWith nd s` is true when `nd` is an initial segment of `s`
(Python `str.startswith`). -/
def leadsWith : List Char → List Char → Bool
  | [], _ => true
  | _ :: _, [] => false
  | a :: as, b :: bs => a = b && leadsWith as bs

/-- Python `nd in s` (substring containment). -/
def hasSub (s nd : List Char) : Bool :=
  match s with
  | [] => leadsWith nd []
  | c :: t => leadsWith nd (c :: t) || hasSub t nd

/-- One fuelled scanning pass of Python `s.replace(o :: os, n)`: replace all
non-overlapping occurrences left to right.  Each step consumes at least one
character, so `s.length` fuel completes the scan; on fuel exhaustion the
remaining input is returned unchanged. -/
def replaceF (o : Char) (os n : List Char) : Nat → List Char → List Char
  | _, [] => []
  | 0, s => s
  | fuel + 1, c :: t =>
    if leadsWith (o :: os) (c :: t) then
      n ++ replaceF o os n fuel ((c :: t).drop (os.length + 1))
    else c :: replaceF o os n fuel t

/-- Python `s.replace(o :: os, n)`.  The pattern is passed as head and tail so
that it is never empty. -/
def replaceL (s : List Char) (o : Char) (os n : List Char) : List Char :=
  replaceF o os n s.length s

/-- Number of occurrences of the character `c` in `s` (Python `str.count` for a
one-character needle). -/
def countChar (s : List Char) (c : Char) : Nat :=
  match s with
  | [] => 0
  | a :: t => (if a = c then 1 else 0) + countChar t c

/-- Python `str.lstrip(cs)`: drop leading characters belonging to `cs`. -/
def lstripChars (s cs : List Char) : List Char :=
  s.dropWhile (fun c => cs.contains c)

/-- Python `str.strip(cs)`: drop leading and trailing characters of `cs`. -/
def stripChars (s cs : List Char) : List Char :=
  ((lstripChars s cs).reverse.dropWhile (fun c => cs.contains c)).reverse

/-- Python `str.endswith(nd)`. -/
def endsWith (s nd : List Char) : Bool :=
  leadsWith nd.reverse s.reverse

/-- Worker for `splitWs`: `cur` is the reversed current token. -/
def splitWsGo (cur : List Char) : List Char → List (List Char)
  | [] => if cur == ([] : List Char) then [] else [cur.reverse]
  | c :: t =>
    if isWs c then
      if cur == ([] : List Char) then splitWsGo [] t
      else cur.reverse :: splitWsGo [] t
    else splitWsGo (c :: cur) t

/-- Python `str.split()` with no separator: split on whitespace runs, dropping
empty pieces. -/
def splitWs (s : List Char) : List (List Char) :=
  splitWsGo [] s

/-- Python `str.split(".")`: split on dots, keeping empty pieces; always
returns at least one piece. -/
def splitOnDot : List Char → List (List Char)
  | [] => [[]]
  | '.' :: t => [] :: splitOnDot t
  | c :: t =>
    match splitOnDot t with
    | h :: r => (c :: h) :: r
    | [] => [[c]]

/-- First piece of a dot-split (Python `symbol.split(".")[0]`). -/
def firstDotPiece (s : List Char) : List Char :=
  match splitOnDot s with
  | h :: _ => h
  | [] => []

/-- Worker for `collapseWs`.  In phase `true` a space has been emitted for the
current whitespace run and further whitespace is dropped; in phase `false`
a whitespace character is kept as it is unless the following character is also
whitespace, in which case the whole run becomes one space. -/
def collapseGo : Bool → List Char → List Char
  | _, [] => []
  | true, c :: t => if isWs c then collapseGo true t else c :: collapseGo false t
  | false, c :: t =>
    if isWs c then
      match t with
      | [] => [c]
      | d :: _ => if isWs d then ' ' :: collapseGo true t else c :: collapseGo false t
    else c :: collapseGo false t

/-- `re.sub(r"\s{2,}", " ", s)`: every maximal run of two or more whitespace
characters is replaced by a single space; an isolated whitespace character is
left as it is. -/
def collapseWs (s : List Char) : List Char :=
  collapseGo false s

/-- One fuelled pass of `re.sub(r"@!?P[TN\d]\s", "", s)` from
`Instruction.__init__`: delete every occurrence of a guard token `@P` / `@!P`
followed by a single character that is `T`, `N` or one digit, and then one
whitespace character.  The scan is the left-to-right scan of `re.sub`,
resuming after the end of each match; each step consumes at least one
character, so `s.length` fuel completes it, and on fuel exhaustion the
remaining input is returned unchanged. -/
def stripGuardF : Nat → List Char → List Char
  | _, [] => []
  | 0, s => s
  | fuel + 1, '@' :: '!' :: 'P' :: x :: w :: rest =>
    if (x = 'T' || x = 'N' || x.isDigit) && isWs w then stripGuardF fuel rest
    else '@' :: stripGuardF fuel ('!' :: 'P' :: x :: w :: rest)
  | fuel + 1, '@' :: 'P' :: x :: w :: rest =>
    if (x = 'T' || x = 'N' || x.isDigit) && isWs w then stripGuardF fuel rest
    else '@' :: stripGuardF fuel ('P' :: x :: w :: rest)
  | fuel + 1, c :: t => c :: stripGuardF fuel t

/-- `re.sub(r"@!?P[TN\d]\s", "", s)`. -/
def stripGuard (s : List Char) : List Char :=
  stripGuardF s.length s

/-- Digit-and-underscore continuation of Python `int(...)`: single underscores
may separate digits. -/
def pyIntDigits (acc : Nat) : List Char → Option Nat
  | [] => some acc
  | '_' :: c :: t =>
    if c.isDigit then pyIntDigits (acc * 10 + (c.toNat - 48)) t else none
  | '_' :: [] => none
  | c :: t =>
    if c.isDigit then pyIntDigits (acc * 10 + (c.toNat - 48)) t else none

/-- Parse a non-empty digit-and-underscore sequence. -/
def pyIntCore : List Char → Option Nat
  | c :: t => if c.isDigit then pyIntDigits (c.toNat - 48) t else none
  | [] => none

/-- Python `int(s)` for decimal strings: optional surrounding whitespace,
optional sign, then digits.  `none` embeds the `ValueError` Python raises on
any other shape. -/
def pyInt (s : List Char) : Option Int :=
  let t := ((s.dropWhile isWs).reverse.dropWhile isWs).reverse
  match t with
  | '-' :: r => (pyIntCore r).map (fun n => -(n : Int))
  | '+' :: r => (pyIntCore r).map (fun n => (n : Int))
  | r => (pyIntCore r).map (fun n => (n : Int))

/-! ### The regular expressions of `argument_to_object`

These patterns are textually identical in `ast.py` and `sass_ast.py`, so they
are embedded once.  Each is a hand compilation of the specific pattern,
following Python `re.search` semantics (leftmost match, greedy quantifiers,
backtracking across alternatives). -/

/-- `^[12]D$` (`texture_dimension_pattern`). -/
def texDim : List Char → Bool
  | c :: rest => (c = '1' || c = '2') && rest == ['D']
  | [] => false

/-- `^(R|G|A|RG|RA|RGB|RGA|RGBA)$` (`texture_component_pattern`). -/
def texCom : List Char → Bool
  | c :: rest =>
    if c = 'R' then
      rest == ([] : List Char) || rest == ['G'] || rest == ['A'] ||
      rest == ['G', 'B'] || rest == ['G', 'A'] || rest == ['G', 'B', 'A']
    else if c = 'G' || c = 'A' then rest == ([] : List Char)
    else false
  | [] => false

/-- `^__fun_[^,\s]+` (`jcal_fun_pattern`): the literal `__fun_` followed by at
least one character that is neither a comma nor whitespace. -/
def jcalMatch (s : List Char) : Bool :=
  leadsWith "__fun_".data s &&
    (match s.drop 6 with
     | c :: _ => !(c = ',') && !isWs c
     | [] => false)

/-- `^SB\d+` (`named_depbar_pattern`). -/
def depbarMatch : List Char → Bool
  | 'S' :: 'B' :: c :: _ => c.isDigit
  | _ => false

/-- `^SR_\w+` (`sreg_pattern`). -/
def sregMatch : List Char → Bool
  | 'S' :: 'R' :: '_' :: c :: _ => isWordC c
  | _ => false

/-- Lower-case hexadecimal digit, the `[0-9a-f]` class of `address_pattern`. -/
def isLHex (c : Char) : Bool :=
  c.isDigit || ('a' ≤ c && c ≤ 'f')

/-- The closing `\]$` of `address_pattern`. -/
def closeOk (t : List Char) : Bool :=
  t == [']']

/-- Offset alternative `\+-?0x[0-9a-f]+` of `address_pattern`, followed by the
closing bracket. -/
def offD : List Char → Bool
  | '+' :: r =>
    let r1 := match r with
      | '-' :: r' => r'
      | _ => r
    (match r1 with
     | '0' :: 'x' :: r2 =>
       let h := r2.takeWhile isLHex
       !(h == ([] : List Char)) && closeOk (r2.drop h.length)
     | _ => false)
  | _ => false

/-- Offset alternative `R\d+` of `address_pattern`, followed by the closing
bracket. -/
def offE : List Char → Bool
  | 'R' :: r =>
    let d := r.takeWhile Char.isDigit
    !(d == ([] : List Char)) && closeOk (r.drop d.length)
  | _ => false

/-- The optional offset group `(\+-?0x[0-9a-f]+|R\d+)?` of `address_pattern`,
followed by the closing bracket. -/
def offPart (t : List Char) : Bool :=
  offD t || offE t || closeOk t

/-- Base alternative `0x[0-9a-f]+`. -/
def baseA : List Char → Bool
  | '0' :: 'x' :: r2 =>
    let h := r2.takeWhile isLHex
    !(h == ([] : List Char)) && offPart (r2.drop h.length)
  | _ => false

/-- Base alternative `RZ`. -/
def baseB : List Char → Bool
  | 'R' :: 'Z' :: r2 => offPart r2
  | _ => false

/-- Base alternative `R\d+(\.64)?`. -/
def baseC : List Char → Bool
  | 'R' :: r1 =>
    let d := r1.takeWhile Char.isDigit
    !(d == ([] : List Char)) &&
      (let r2 := r1.drop d.length
       if leadsWith ".64".data r2 then offPart (r2.drop 3) else offPart r2)
  | _ => false

/-- `^\[(0x[0-9a-f]+|RZ|R\d+(\.64)?)(\+-?0x[0-9a-f]+|R\d+)?\]$`
(`address_pattern`). -/
def addrMatch : List Char → Bool
  | '[' :: r => baseA r || baseB r || baseC r
  | _ => false

/-- Selector alternatives of `const_mem_pattern`, tried in pattern order. -/
def constSelTry (r : List Char) : Option (List Char) :=
  if leadsWith "H1".data r then some "H1".data
  else if leadsWith "B0".data r then some "B0".data
  else if leadsWith "B1".data r then some "B1".data
  else if leadsWith "B2".data r then some "B2".data
  else if leadsWith "B3".data r then some "B3".data
  else none

/-- `^c\[([^]]+)]\s*(\[[^]]+\])\.?(H1|B0|B1|B2|B3)?` (`const_mem_pattern`).
Returns the three captured groups: the bank text, the bracketed offset text
(brackets included, as in group 2), and the optional selector. -/
def constMemMatch : List Char → Option (List Char × List Char × Option (List Char))
  | 'c' :: '[' :: r =>
    let g1 := r.takeWhile (fun c => !(c = ']'))
    if g1 == ([] : List Char) then none
    else
      match r.drop g1.length with
      | ']' :: r2 =>
        (match r2.dropWhile isWs with
         | '[' :: r4 =>
           let g2i := r4.takeWhile (fun c => !(c = ']'))
           if g2i == ([] : List Char) then none
           else
             match r4.drop g2i.length with
             | ']' :: r5 =>
               let r6 := match r5 with
                 | '.' :: r5' => r5'
                 | _ => r5
               some (g1, '[' :: (g2i ++ [']']), constSelTry r6)
             | _ => none
         | _ => none)
      | _ => none
  | _ => none

/-- First alternative `\d+\.NEG` of `float_pattern`: a digit immediately
followed by the literal `.NEG`, anywhere in the string. -/
def digNEG : List Char → Bool
  | [] => false
  | c :: t => (c.isDigit && leadsWith ".NEG".data t) || digNEG t

/-- The `(\.NEG)?$` tail of the scientific-notation alternative. -/
def sciTail (t : List Char) : Bool :=
  t == ([] : List Char) || t == ".NEG".data

/-- The scientific-notation alternative `\d+\.\d+e-?\d+(\.NEG)?$` of
`float_pattern`, anchored at the current position and the end. -/
def sciMatch (s : List Char) : Bool :=
  let d1 := s.takeWhile Char.isDigit
  if d1 == ([] : List Char) then false
  else
    match s.drop d1.length with
    | '.' :: r1 =>
      let d2 := r1.takeWhile Char.isDigit
      if d2 == ([] : List Char) then false
      else
        match r1.drop d2.length with
        | 'e' :: r2 =>
          let r3 := match r2 with
            | '-' :: r2' => r2'
            | _ => r2
          let d3 := r3.takeWhile Char.isDigit
          if d3 == ([] : List Char) then false else sciTail (r3.drop d3.length)
        | _ => false
    | _ => false

/-- The scientific-notation alternative tried at every start position (the
alternative is not anchored on the left). -/
def sciAny : List Char → Bool
  | [] => false
  | c :: t => sciMatch (c :: t) || sciAny t

/-- `\d+\.NEG|\d+\.\d+e-?\d+(\.NEG)?$|^[+-]INF$|^\+QNAN$` (`float_pattern`). -/
def floatMatch (s : List Char) : Bool :=
  digNEG s || sciAny s || s == "+INF".data || s == "-INF".data || s == "+QNAN".data

/-- The scan of `(?<!R|#|P)\b\d+$` (`dec_pattern`): at each position the
remainder must be a non-empty all-digit suffix, the position must be a word
boundary (the character at the position is a digit, hence a word character,
so the preceding character must be absent or a non-word character), and the
negative lookbehind must exclude `R`, `#` and `P` as the preceding
character. -/
def decScan : Option Char → List Char → Bool
  | _, [] => false
  | prev, c :: t =>
    ((c :: t).all Char.isDigit &&
      (match prev with
       | none => true
       | some q => !isWordC q && !(q = '#') && !(q = 'R') && !(q = 'P'))) ||
    decScan (some c) t

/-- `re.search` of `dec_pattern`. -/
def decMatch (s : List Char) : Bool :=
  decScan none s

/-- The Python exceptions that the two modules can raise, as error values. -/
inductive PyErr where
  /-- `ValueError(f"[sass_ast.py]: Unable to parse {arg}")` raised by the
  final branch of `argument_to_object`; carries the offending token. -/
  | unrecognized (tok : List Char)
  /-- any other `ValueError` (`int()` on a malformed string, an invalid
  `UnaryOp` operator, an invalid `to_smt` width). -/
  | valueError
  /-- `IndexError` from indexing an empty string or an empty token list. -/
  | indexError
  /-- `AttributeError` from assigning to a read-only property. -/
  | attributeError
  /-- `AssertionError` from the `RegAddress` constructor asserts. -/
  | assertionError
  /-- `ValueError("Unable to parse: " + text)` raised by `Statement.__init__`
  when constructing the predicate register fails. -/
  | unableToParse
  /-- artificial marker for fuel exhaustion of the embedded recursion; the
  recursion depth of `argument_to_object` is bounded by the argument length,
  and every entry point supplies that much fuel, so no theorem below ever
  depends on this value. -/
  | fuelOut
deriving DecidableEq, Repr

/-- Strip a trailing `.reuse` qualifier: `arg.replace(".reuse", "")`, the
preprocessing step of both `argument_to_object` functions. -/
def stripReuse (s : List Char) : List Char :=
  replaceL s '.' "reuse".data []

/-- The alternatives `H[01]|B[0-3]|64` of `_REGISTER_PATTERN`, in pattern
order. -/
def regSelAlts : List (List Char) :=
  ["H0".data, "H1".data, "B0".data, "B1".data, "B2".data, "B3".data, "64".data]

/-- The `(.reuse)?$` tail of `_REGISTER_PATTERN`: either the end of the
string, or one arbitrary character followed by the literal `reuse` and the
end. -/
def regTailOk (t : List Char) : Bool :=
  t == ([] : List Char) ||
    (match t with
     | _ :: u => u == "reuse".data
     | [] => false)

/-- The scan of `_REGISTER_PATTERN` =
`((?<=\.)((?P<selector>H[01]|B[0-3]|64)|(?P<CC>CC)))(.reuse)?$` over the
symbol: at each position whose preceding character is a dot, try the selector
alternatives and then `CC`, each followed by the optional `.reuse` tail and
the end of the string.  `some (some sel)` is a selector match, `some none`
a `CC` match, `none` no match. -/
def regScanGo : Option Char → List Char → Option (Option (List Char))
  | _, [] => none
  | prev, c :: t =>
    if prev == some '.' then
      match regSelAlts.find? (fun a => leadsWith a (c :: t) && regTailOk ((c :: t).drop a.length)) with
      | some a => some (some a)
      | none =>
        if leadsWith "CC".data (c :: t) && regTailOk ((c :: t).drop 2) then some none
        else regScanGo (some c) t
    else regScanGo (some c) t

/-- `_REGISTER_PATTERN.search(symbol)` reduced to the derived attributes of
`ast.Register`: the `selector` named group and whether the `CC` named group
matched.  (The `(.reuse)` group is unnamed, so `matches.get("reuse")` in the
source is always `None` and `Register.reuse` is always `False`.) -/
def regPatScan (s : List Char) : Option (List Char) × Bool :=
  match regScanGo none s with
  | some (some sel) => (some sel, false)
  | some none => (none, true)
  | none => (none, false)

namespace PyAst

/-- The operand classes of `ast.py` that `argument_to_object` can build, as a
single tagged union.  Field names follow the Python attributes. -/
inductive Operand where
  /-- `Register`: `_v`, `selector`, `CC`, `reuse` (always false, see
  `regPatScan`), `_num`. -/
  | register (v : List Char) (selector : Option (List Char)) (CC : Bool)
      (reuse : Bool) (num : Int)
  /-- `CC_Register`: `v` and the optional condition qualifier. -/
  | ccRegister (v : List Char) (condition : Option (List Char))
  /-- `HexImmediate`: the literal text. -/
  | hexImmediate (text : List Char)
  /-- `RegAddress`: `base`, `offset`, `text` (brackets removed). -/
  | regAddress (base : Operand) (offset : Option Operand) (text : List Char)
  /-- `ConstantAccess`: `bank`, `offset`, `selector`. -/
  | constantAccess (bank : Operand) (offset : Operand) (selector : Option (List Char))
  /-- `PredicateRegister` (its constructor always raises in `ast.py`; the
  variant exists to mirror the class). -/
  | predicateRegister (v : List Char)
  /-- `Barrier`: the literal text. -/
  | barrier (text : List Char)
  /-- `UnaryOp`: `operation`, `argument`, `h1`. -/
  | unaryOp (operation : List Char) (argument : Operand) (h1 : Bool)
  /-- `FloatImmediate`: `v` (with `.NEG` stripped to a leading minus) and
  `negated`. -/
  | floatImmediate (v : List Char) (negated : Bool)
  /-- `DecImmediate`: `v`. -/
  | decImmediate (v : List Char)
  /-- `SReg`: `v`. -/
  | sReg (v : List Char)
  /-- `NamedDependencyBarrier`: `v`. -/
  | namedDependencyBarrier (v : List Char)
  /-- `Simulator_function_name`: `v`. -/
  | simulatorFunctionName (v : List Char)
  /-- `TextureDimensionOperand`: `v`. -/
  | textureDimension (v : List Char)
  /-- `TextureComponentOperand`: `v`. -/
  | textureComponent (v : List Char)

/-- Whether an operand is a `UnaryOp` instance. -/
def Operand.isUnary : Operand → Bool
  | .unaryOp _ _ _ => true
  | _ => false

/-- Whether an operand is a `CC_Register` instance. -/
def Operand.isCC : Operand → Bool
  | .ccRegister _ _ => true
  | _ => false

/-- `ast.Register.__init__`: split the symbol at dots for `_v`, run
`_REGISTER_PATTERN` for `selector`/`CC`, and compute
`_num = -1 if _v == "RZ" else int(_v[1:])`; the `int` call can raise
`ValueError`. -/
def mkRegister (arg : List Char) : Except PyErr Operand :=
  let v := firstDotPiece arg
  let sc := regPatScan arg
  if v == "RZ".data then .ok (.register v sc.1 sc.2 false (-1))
  else
    match pyInt (v.drop 1) with
    | some n => .ok (.register v sc.1 sc.2 false n)
    | none => .error .valueError

/-- `ast.PredicateRegister.__init__` line 168 executes `self.v = v`, but `v`
is a read-only property (defined without a setter at lines 177–180), so the
assignment raises `AttributeError` before anything else happens.  Every
construction of `ast.PredicateRegister` therefore fails. -/
def mkPredicate (_v : List Char) : Except PyErr Operand :=
  .error .attributeError

/-- The computation of `ast.PredicateRegister._num` on line 170
(`-1 if self.v == "PT" else int(self.v[1:])`): the numeric index the class is
documented to provide, unreachable in the source because line 168 raises
first. -/
def PredicateRegister.numIntended (v : List Char) : Option Int :=
  if v == "PT".data then some (-1) else pyInt (v.drop 1)

/-- `CC_Register.__init__`: split at dots; the first piece is `v`, the second
(when present) the condition qualifier. -/
def mkCC (arg : List Char) : Operand :=
  match splitOnDot arg with
  | v :: c :: _ => .ccRegister v (some c)
  | v :: _ => .ccRegister v none
  | [] => .ccRegister [] none

/-- `FloatImmediate.__init__`. -/
def mkFloat (arg : List Char) : Operand :=
  if endsWith arg ".NEG".data then
    .floatImmediate ('-' :: arg.take (arg.length - 4)) true
  else .floatImmediate arg false

/-- The valid `UnaryOp` operators. -/
def opValid (op : List Char) : Bool :=
  op == "|".data || op == "-".data || op == "!".data || op == "~".data || op == "-|".data

/-- `UnaryOp.__init__`, parameterised by the classifier used for the
argument: validate the operator, classify the operator-stripped text, and
record whether `H1` occurs in that text. -/
def mkUnary (cl : List Char → Except PyErr Operand) (op text : List Char) :
    Except PyErr Operand :=
  if opValid op then do
    let a ← cl text
    .ok (.unaryOp op a (hasSub text "H1".data))
  else .error .valueError

/-- Index of the first `+` (Python `str.find("+")`, total on the call sites,
which are guarded by `"+" in noBracket`). -/
def idxPlus : List Char → Nat
  | [] => 0
  | c :: t => if c = '+' then 0 else idxPlus t + 1

/-- The `RegAddress` offset assert: `HexImmediate` or `UnaryOp` on a
`HexImmediate`. -/
def offsetOk : Operand → Bool
  | .hexImmediate _ => true
  | .unaryOp _ a _ =>
    (match a with
     | .hexImmediate _ => true
     | _ => false)
  | _ => false

/-- The `RegAddress` base assert: `Register` or `HexImmediate`. -/
def baseOk : Operand → Bool
  | .register _ _ _ _ _ => true
  | .hexImmediate _ => true
  | _ => false

/-- `RegAddress.__init__`, parameterised by the classifier: strip brackets,
split at the first `+` when present, classify base (and offset), and enforce
the two asserts in source order (base classified first, offset classified
second, offset asserted, base asserted). -/
def mkRegAddress (cl : List Char → Except PyErr Operand) (text : List Char) :
    Except PyErr Operand :=
  let noB := replaceL (replaceL text '[' [] []) ']' [] []
  if hasSub noB "+".data then do
    let i := idxPlus noB
    let base ← cl (noB.take i)
    let off ← cl (noB.drop (i + 1))
    if offsetOk off then
      if baseOk base then .ok (.regAddress base (some off) noB)
      else .error .assertionError
    else .error .assertionError
  else do
    let base ← cl noB
    if baseOk base then .ok (.regAddress base none noB)
    else .error .assertionError

/-- `ast.argument_to_object`, with explicit fuel for the recursion through
composite operands (each recursive call is on a strictly shorter string, so
`length + 1` fuel always suffices).  The branch order is the flattened
`if`/`elif` cascade of the source (every branch returns, so the separate
`if` statements behave as one chain). -/
def classifyF : Nat → List Char → Except PyErr Operand
  | 0, _ => .error .fuelOut
  | fuel + 1, arg0 =>
    let arg := stripReuse arg0
    if texDim arg then .ok (.textureDimension arg)
    else if texCom arg then .ok (.textureComponent arg)
    else if jcalMatch arg then .ok (.simulatorFunctionName arg)
    else if depbarMatch arg then .ok (.namedDependencyBarrier arg)
    else if sregMatch arg then .ok (.sReg arg)
    else
      match constMemMatch arg with
      | some (g1, g2, g3) => do
        let b ← classifyF fuel g1
        let o ← classifyF fuel g2
        .ok (.constantAccess b o g3)
      | none =>
        if countChar arg '|' == 2 then
          if leadsWith "-|".data arg then
            mkUnary (classifyF fuel) "-|".data
              (replaceL (replaceL arg '|' [] []) '-' [] [])
          else mkUnary (classifyF fuel) "|".data (replaceL arg '|' [] [])
        else
          match arg with
          | [] => .error .indexError
          | c :: _ =>
            if c = '!' then mkUnary (classifyF fuel) "!".data (lstripChars arg ['!'])
            else if c = '~' then mkUnary (classifyF fuel) "~".data (stripChars arg ['~'])
            else if c = '-' && !hasSub arg "-INF".data then
              mkUnary (classifyF fuel) "-".data (lstripChars arg ['-'])
            else if leadsWith "CC".data arg then .ok (mkCC arg)
            else if c = 'R' then mkRegister arg
            else if c = 'P' then mkPredicate arg
            else if leadsWith "0x".data arg then .ok (.hexImmediate arg)
            else if c = '{' then .ok (.barrier arg)
            else if floatMatch arg then .ok (mkFloat arg)
            else if decMatch arg then .ok (.decImmediate arg)
            else if addrMatch arg then mkRegAddress (classifyF fuel) arg
            else .error (.unrecognized arg)

/-- `ast.argument_to_object` on a token. -/
def classify (s : List Char) : Except PyErr Operand :=
  classifyF (s.length + 1) s

/-- `classify` on a `String`. -/
def classifyS (s : String) : Except PyErr Operand :=
  classify s.data

/-- `ast.Instruction`: normalized text, mnemonic (`sass_instruction`) and
classified operand list. -/
structure Instruction where
  text : List Char
  sass_instruction : List Char
  arguments : List Operand

/-- `ast.Instruction.__init__`: normalize `] [` to `][`, strip a
single-character-index predicate guard when an `@` occurs, normalize
comma-space separators and repeated whitespace, take the first token as the
mnemonic, classify the remaining tokens in order, and append `CC` to the
mnemonic when the normalized text contains `.CC` or the stored text is
exactly `IMNMX.XHI`. -/
def Instruction.ofText (input : List Char) : Except PyErr Instruction :=
  let t0 := replaceL input ']' " [".data "][".data
  let t1 := if hasSub t0 "@".data then stripGuard t0 else t0
  let t2 := replaceL t1 ',' " ".data " ".data
  let t3 := collapseWs t2
  let toks := splitWs (replaceL t3 ',' " ".data " ".data)
  match toks with
  | [] => .error .indexError
  | m :: rest => do
    let mn0 := replaceL m ' ' [] []
    let args ← rest.mapM classify
    let mn := if hasSub t3 ".CC".data || t1 == "IMNMX.XHI".data then mn0 ++ "CC".data
      else mn0
    .ok ⟨t1, mn, args⟩

/-- `Instruction.ofText` on a `String`. -/
def Instruction.ofTextS (s : String) : Except PyErr Instruction :=
  Instruction.ofText s.data

/-- `ast.Statement`: label, normalized text, predication flags, optional
predicate register, instruction. -/
structure Statement where
  label : List Char
  text : List Char
  predicated : Bool
  inverted : Bool
  predReg : Option Operand
  instruction : Instruction

/-- `ast.Statement.__init__`: normalize `] [`, detect predication (`@` in
text) and inversion (`@!` in text), build the predicate register from the
first token with the guard marker sliced off (any exception becoming
`ValueError("Unable to parse: ...")` through the bare `except`), then parse
the instruction from the full text. -/
def Statement.ofText (label input : List Char) : Except PyErr Statement := do
  let t := replaceL input ']' " [".data "][".data
  let predicated := hasSub t "@".data
  let inverted := hasSub t "@!".data
  let predReg ←
    if predicated then
      match splitWs (replaceL t ',' " ".data " ".data) with
      | [] => .error .unableToParse
      | tok :: _ =>
        match mkPredicate (tok.drop (if inverted then 2 else 1)) with
        | .ok p => .ok (some p)
        | .error _ => .error .unableToParse
    else .ok none
  let instr ← Instruction.ofText t
  .ok ⟨label, t, predicated, inverted, predReg, instr⟩

/-- `Statement.ofText` on `String`s. -/
def Statement.ofTextS (label text : String) : Except PyErr Statement :=
  Statement.ofText label.data text.data

/-- Python `==` between classified operands, for the classes of `ast.py` that
define `__eq__` (`Register`, `CC_Register`, `PredicateRegister`): `some b`
gives the boolean the source returns; `none` marks the remaining classes,
whose comparison falls back to object identity and has no structural
counterpart.  `CC_Register.__eq__` (line 117) is
`isinstance(other, CC_Register)`: the fields of both operands are ignored. -/
def pyEq : Operand → Operand → Option Bool
  | .register v₁ s₁ c₁ _ _, o =>
    some (match o with
      | .register v₂ s₂ c₂ _ _ => v₁ == v₂ && s₁ == s₂ && c₁ == c₂
      | _ => false)
  | .ccRegister _ _, o => some o.isCC
  | .predicateRegister v₁, o =>
    some (match o with
      | .predicateRegister v₂ => v₁ == v₂
      | _ => false)
  | _, _ => none

end PyAst

namespace PySass

/-- The operand classes of `sass_ast.py` that `argument_to_object` can build.
`Register` here records what `sass_ast.Register.__init__` sets: `selector` is
`none` when no branch of its `if`/`elif` chain fires (the Python attribute is
then simply absent), and there is no numeric index.  `PredicateRegister`
stores `v` (its `type` attribute is the constant `"Bool"` and is omitted). -/
inductive Operand where
  /-- `Register`: `v`, optional `selector`, `CC`, `reuse`. -/
  | register (v : List Char) (selector : Option (List Char)) (CC : Bool) (reuse : Bool)
  /-- `CC_Register`: `v` and the optional condition qualifier. -/
  | ccRegister (v : List Char) (condition : Option (List Char))
  /-- `HexImmediate`: the literal text. -/
  | hexImmediate (text : List Char)
  /-- `RegAddress`: `base`, `offset`, `text` (brackets removed). -/
  | regAddress (base : Operand) (offset : Option Operand) (text : List Char)
  /-- `ConstantAccess`: `bank`, `offset`, `selector`. -/
  | constantAccess (bank : Operand) (offset : Operand) (selector : Option (List Char))
  /-- `PredicateRegister`: `v`. -/
  | predicateRegister (v : List Char)
  /-- `Barrier`: the literal text. -/
  | barrier (text : List Char)
  /-- `UnaryOp`: `operation`, `argument`, `h1`. -/
  | unaryOp (operation : List Char) (argument : Operand) (h1 : Bool)
  /-- `FloatImmediate`: `v` and `negated`. -/
  | floatImmediate (v : List Char) (negated : Bool)
  /-- `DecImmediate`: `v`. -/
  | decImmediate (v : List Char)
  /-- `SReg`: `v`. -/
  | sReg (v : List Char)
  /-- `NamedDependencyBarrier`: `v`. -/
  | namedDependencyBarrier (v : List Char)
  /-- `Simulator_function_name`: `v`. -/
  | simulatorFunctionName (v : List Char)
  /-- `TextureDimensionOperand`: `v`. -/
  | textureDimension (v : List Char)
  /-- `TextureComponentOperand`: `v`. -/
  | textureComponent (v : List Char)

/-- Whether an operand is a `UnaryOp` instance. -/
def Operand.isUnary : Operand → Bool
  | .unaryOp _ _ _ => true
  | _ => false

/-- `sass_ast.Register.__init__`: the selector comes from an `if`/`elif`
chain of substring tests (note there is no `.H0` case, and the `B3` test has
no leading dot in the source); `CC` and `reuse` are substring tests; `v` is
the first dot-piece. -/
def mkRegister (symbol : List Char) : Operand :=
  let selector :=
    if hasSub symbol ".H1".data then some "H1".data
    else if hasSub symbol ".B0".data then some "B0".data
    else if hasSub symbol ".B1".data then some "B1".data
    else if hasSub symbol ".B2".data then some "B2".data
    else if hasSub symbol "B3".data then some "B3".data
    else if hasSub symbol ".64".data then some "64".data
    else none
  .register (firstDotPiece symbol) selector (hasSub symbol ".CC".data)
    (hasSub symbol ".reuse".data)

/-- `sass_ast.PredicateRegister.__init__`: stores `v` (and the constant
`type = "Bool"`); never fails. -/
def mkPredicate (v : List Char) : Operand :=
  .predicateRegister v

/-- `sass_ast.CC_Register.__init__`. -/
def mkCC (arg : List Char) : Operand :=
  match splitOnDot arg with
  | v :: c :: _ => .ccRegister v (some c)
  | v :: _ => .ccRegister v none
  | [] => .ccRegister [] none

/-- `sass_ast.FloatImmediate.__init__`. -/
def mkFloat (arg : List Char) : Operand :=
  if endsWith arg ".NEG".data then
    .floatImmediate ('-' :: arg.take (arg.length - 4)) true
  else .floatImmediate arg false

/-- `sass_ast.HexImmediate.to_smt(width)`: reject widths outside
`{32, 16, 64}` with `ValueError`, strip leading `0`/`x` characters
(`lstrip("0x")` treats the argument as a character set), and left-pad with
zeros to 8, 4 or 16 hexadecimal digits after the `#x` marker. -/
def HexImmediate.to_smt (text : List Char) (width : Nat) : Except PyErr (List Char) :=
  if width = 32 || width = 16 || width = 64 then
    let val := lstripChars text "0x".data
    if width = 32 then .ok ("#x".data ++ List.replicate (8 - val.length) '0' ++ val)
    else if width = 16 then .ok ("#x".data ++ List.replicate (4 - val.length) '0' ++ val)
    else .ok ("#x".data ++ List.replicate (16 - val.length) '0' ++ val)
  else .error .valueError

/-- `sass_ast.UnaryOp.__init__`, parameterised by the classifier. -/
def mkUnary (cl : List Char → Except PyErr Operand) (op text : List Char) :
    Except PyErr Operand :=
  if PyAst.opValid op then do
    let a ← cl text
    .ok (.unaryOp op a (hasSub text "H1".data))
  else .error .valueError

/-- The `RegAddress` offset assert of `sass_ast.py`. -/
def offsetOk : Operand → Bool
  | .hexImmediate _ => true
  | .unaryOp _ a _ =>
    (match a with
     | .hexImmediate _ => true
     | _ => false)
  | _ => false

/-- The `RegAddress` base assert of `sass_ast.py`. -/
def baseOk : Operand → Bool
  | .register _ _ _ _ => true
  | .hexImmediate _ => true
  | _ => false

/-- `sass_ast.RegAddress.__init__`, parameterised by the classifier. -/
def mkRegAddress (cl : List Char → Except PyErr Operand) (text : List Char) :
    Except PyErr Operand :=
  let noB := replaceL (replaceL text '[' [] []) ']' [] []
  if hasSub noB "+".data then do
    let i := PyAst.idxPlus noB
    let base ← cl (noB.take i)
    let off ← cl (noB.drop (i + 1))
    if offsetOk off then
      if baseOk base then .ok (.regAddress base (some off) noB)
      else .error .assertionError
    else .error .assertionError
  else do
    let base ← cl noB
    if baseOk base then .ok (.regAddress base none noB)
    else .error .assertionError

/-- `sass_ast.argument_to_object` with explicit fuel; the cascade is the same
as in `ast.py`, only the `Register` and `PredicateRegister` constructors
differ. -/
def classifyF : Nat → List Char → Except PyErr Operand
  | 0, _ => .error .fuelOut
  | fuel + 1, arg0 =>
    let arg := stripReuse arg0
    if texDim arg then .ok (.textureDimension arg)
    else if texCom arg then .ok (.textureComponent arg)
    else if jcalMatch arg then .ok (.simulatorFunctionName arg)
    else if depbarMatch arg then .ok (.namedDependencyBarrier arg)
    else if sregMatch arg then .ok (.sReg arg)
    else
      match constMemMatch arg with
      | some (g1, g2, g3) => do
        let b ← classifyF fuel g1
        let o ← classifyF fuel g2
        .ok (.constantAccess b o g3)
      | none =>
        if countChar arg '|' == 2 then
          if leadsWith "-|".data arg then
            mkUnary (classifyF fuel) "-|".data
              (replaceL (replaceL arg '|' [] []) '-' [] [])
          else mkUnary (classifyF fuel) "|".data (replaceL arg '|' [] [])
        else
          match arg with
          | [] => .error .indexError
          | c :: _ =>
            if c = '!' then mkUnary (classifyF fuel) "!".data (lstripChars arg ['!'])
            else if c = '~' then mkUnary (classifyF fuel) "~".data (stripChars arg ['~'])
            else if c = '-' && !hasSub arg "-INF".data then
              mkUnary (classifyF fuel) "-".data (lstripChars arg ['-'])
            else if leadsWith "CC".data arg then .ok (mkCC arg)
            else if c = 'R' then .ok (mkRegister arg)
            else if c = 'P' then .ok (mkPredicate arg)
            else if leadsWith "0x".data arg then .ok (.hexImmediate arg)
            else if c = '{' then .ok (.barrier arg)
            else if floatMatch arg then .ok (mkFloat arg)
            else if decMatch arg then .ok (.decImmediate arg)
            else if addrMatch arg then mkRegAddress (classifyF fuel) arg
            else .error (.unrecognized arg)

/-- `sass_ast.argument_to_object` on a token. -/
def classify (s : List Char) : Except PyErr Operand :=
  classifyF (s.length + 1) s

/-- `classify` on a `String`. -/
def classifyS (s : String) : Except PyErr Operand :=
  classify s.data

/-- `sass_ast.Instruction`. -/
structure Instruction where
  text : List Char
  sass_instruction : List Char
  arguments : List Operand

/-- `sass_ast.Instruction.__init__`: identical normalization, tokenization,
mnemonic and suffix logic to `ast.Instruction.__init__`. -/
def Instruction.ofText (input : List Char) : Except PyErr Instruction :=
  let t0 := replaceL input ']' " [".data "][".data
  let t1 := if hasSub t0 "@".data then stripGuard t0 else t0
  let t2 := replaceL t1 ',' " ".data " ".data
  let t3 := collapseWs t2
  let toks := splitWs (replaceL t3 ',' " ".data " ".data)
  match toks with
  | [] => .error .indexError
  | m :: rest => do
    let mn0 := replaceL m ' ' [] []
    let args ← rest.mapM classify
    let mn := if hasSub t3 ".CC".data || t1 == "IMNMX.XHI".data then mn0 ++ "CC".data
      else mn0
    .ok ⟨t1, mn, args⟩

/-- `Instruction.ofText` on a `String`. -/
def Instruction.ofTextS (s : String) : Except PyErr Instruction :=
  Instruction.ofText s.data

/-- `sass_ast.Statement`. -/
structure Statement where
  label : List Char
  text : List Char
  predicated : Bool
  inverted : Bool
  predReg : Option Operand
  instruction : Instruction

/-- `sass_ast.Statement.__init__`: same structure as `ast.Statement.__init__`;
here the predicate-register constructor cannot fail, so the bare `except`
only fires when the text has no tokens. -/
def Statement.ofText (label input : List Char) : Except PyErr Statement := do
  let t := replaceL input ']' " [".data "][".data
  let predicated := hasSub t "@".data
  let inverted := hasSub t "@!".data
  let predReg ←
    if predicated then
      match splitWs (replaceL t ',' " ".data " ".data) with
      | [] => .error .unableToParse
      | tok :: _ => .ok (some (mkPredicate (tok.drop (if inverted then 2 else 1))))
    else .ok none
  let instr ← Instruction.ofText t
  .ok ⟨label, t, predicated, inverted, predReg, instr⟩

/-- `Statement.ofText` on `String`s. -/
def Statement.ofTextS (label text : String) : Except PyErr Statement :=
  Statement.ofText label.data text.data

end PySass

namespace PySass

/-- Whether an operand is a `CC_Register` instance. -/
def Operand.isCC : Operand → Bool
  | .ccRegister _ _ => true
  | _ => false

/-- Python `==` between classified operands for the classes of `sass_ast.py`
that define `__eq__`.  In `sass_ast.py`, `CC_Register` subclasses `Register`,
so `Register.__eq__`'s `isinstance(other, Register)` also accepts a
`CC_Register` and compares the `v` fields; `CC_Register.__eq__` is
`isinstance(other, CC_Register)` and ignores every field.  `none` marks the
classes whose comparison is Python object identity. -/
def pyEq : Operand → Operand → Option Bool
  | .register v₁ _ _ _, o =>
    some (match o with
      | .register v₂ _ _ _ => v₁ == v₂
      | .ccRegister v₂ _ => v₁ == v₂
      | _ => false)
  | .ccRegister _ _, o => some o.isCC
  | .predicateRegister v₁, o =>
    some (match o with
      | .predicateRegister v₂ => v₁ == v₂
      | _ => false)
  | _, _ => none

end PySass

/-- The disjunction of the matching-rule guards of `argument_to_object`,
evaluated on the (`.reuse`-stripped) token, in the cascade's own terms: the
token fails every rule exactly when this is `false`. -/
def matchesSomeRule (t : List Char) : Bool :=
  texDim t || texCom t || jcalMatch t || depbarMatch t || sregMatch t ||
  (constMemMatch t).isSome || (countChar t '|' == 2) ||
  (match t with
   | c :: rest =>
     c = '!' || c = '~' || (c = '-' && !hasSub (c :: rest) "-INF".data) ||
     c = 'R' || c = 'P' || c = '{'
   | [] => false) ||
  leadsWith "CC".data t || leadsWith "0x".data t ||
  floatMatch t || decMatch t || addrMatch t

/-- The guards of the four `UnaryOp`-producing branches of
`argument_to_object`, evaluated on the (`.reuse`-stripped) token. -/
def unaryGuard (t : List Char) : Bool :=
  (countChar t '|' == 2) ||
  (match t with
   | c :: rest => c = '!' || c = '~' || (c = '-' && !hasSub (c :: rest) "-INF".data)
   | [] => false)

/-! ### Lemmas about the string helpers -/

theorem countChar_eq_zero {c : Char} {s : List Char} (h : c ∉ s) :
    countChar s c = 0 := by
  induction s with
  | nil => rfl
  | cons a t ih =>
    simp only [List.mem_cons, not_or] at h
    have ha : ¬(a = c) := fun he => h.1 he.symm
    simp [countChar, ha, ih h.2]

theorem replaceF_not_mem {o : Char} (os n : List Char) (fuel : Nat) :
    ∀ s : List Char, o ∉ s → replaceF o os n fuel s = s := by
  induction fuel with
  | zero => intro s _; cases s <;> rfl
  | succ m ih =>
    intro s hs
    cases s with
    | nil => rfl
    | cons c t =>
      simp only [List.mem_cons, not_or] at hs
      have hoc : ¬(o = c) := hs.1
      simp [replaceF, leadsWith, hoc, ih t hs.2]

theorem replaceL_not_mem {o : Char} (os n : List Char) {s : List Char} (h : o ∉ s) :
    replaceL s o os n = s :=
  replaceF_not_mem os n s.length s h

theorem stripReuse_not_dot {s : List Char} (h : ('.' : Char) ∉ s) :
    stripReuse s = s :=
  replaceL_not_mem _ _ h

theorem hasSub_head_not_mem {o : Char} (os : List Char) {s : List Char} (h : o ∉ s) :
    hasSub s (o :: os) = false := by
  induction s with
  | nil => rfl
  | cons c t ih =>
    simp only [List.mem_cons, not_or] at h
    have hoc : ¬(o = c) := h.1
    simp [hasSub, leadsWith, hoc, ih h.2]

theorem stripGuardF_no_at (fuel : Nat) :
    ∀ s : List Char, '@' ∉ s → stripGuardF fuel s = s := by
  induction fuel with
  | zero => intro s _; cases s <;> rfl
  | succ m ih =>
    intro s hs
    rcases s with _ | ⟨c, t⟩
    · rfl
    · simp only [List.mem_cons, not_or] at hs
      rw [stripGuardF.eq_def]
      split <;> simp_all

theorem stripGuard_no_at {s : List Char} (h : '@' ∉ s) : stripGuard s = s :=
  stripGuardF_no_at s.length s h

/-- Adjacent whitespace pair detector: `collapseWs` is the identity exactly
on pair-free strings. -/
def hasWsPair : List Char → Bool
  | a :: b :: t => (isWs a && isWs b) || hasWsPair (b :: t)
  | _ => false

theorem collapseGo_false_step {c : Char} {t : List Char}
    (h : isWs c = false ∨ (∃ d u, t = d :: u ∧ isWs d = false)) :
    collapseGo false (c :: t) = c :: collapseGo false t := by
  rcases h with h | ⟨d, u, rfl, hd⟩
  · cases t <;> simp [collapseGo, h]
  · by_cases hc : isWs c <;> simp [collapseGo, hc, hd]

theorem collapseGo_false_id : ∀ s : List Char, hasWsPair s = false → collapseGo false s = s := by
  intro s
  induction s with
  | nil => intro _; rfl
  | cons c t ih =>
    intro h
    cases t with
    | nil =>
      by_cases hc : isWs c
      · simp [collapseGo, hc]
      · rw [collapseGo_false_step (Or.inl (by simp [hc]))]; rfl
    | cons d u =>
      simp only [hasWsPair, Bool.or_eq_false_iff, Bool.and_eq_false_iff] at h
      have ht : hasWsPair (d :: u) = false := h.2
      by_cases hc : isWs c
      · have hd : isWs d = false := by
          rcases h.1 with h1 | h1
          · exact absurd h1 (by simp [hc])
          · exact h1
        rw [collapseGo_false_step (Or.inr ⟨d, u, rfl, hd⟩), ih ht]
      · rw [collapseGo_false_step (Or.inl (by simp [hc])), ih ht]

theorem hasWsPair_append : ∀ l r : List Char, (∀ c ∈ l, isWs c = false) →
    hasWsPair (l ++ r) = hasWsPair r := by
  intro l
  induction l with
  | nil => intro r _; rfl
  | cons a l' ih =>
    intro r hl
    have ha : isWs a = false := hl a (List.mem_cons_self _ _)
    have hl' : ∀ c ∈ l', isWs c = false := fun c hc => hl c (List.mem_cons_of_mem _ hc)
    cases l' with
    | nil =>
      cases r with
      | nil => rfl
      | cons b r' => simp [hasWsPair, ha]
    | cons a' l'' =>
      have := ih r hl'
      simp only [List.cons_append] at this ⊢
      simp [hasWsPair, ha, this]

theorem collapseWs_id {s : List Char} (h : hasWsPair s = false) : collapseWs s = s :=
  collapseGo_false_id s h

theorem splitWsGo_word : ∀ (w acc r : List Char), (∀ c ∈ w, isWs c = false) →
    acc ≠ [] → splitWsGo acc (w ++ ' ' :: r) = (acc.reverse ++ w) :: splitWsGo [] r := by
  intro w
  induction w with
  | nil =>
    intro acc r _ hacc
    have : (acc == ([] : List Char)) = false := by
      cases acc with
      | nil => exact absurd rfl hacc
      | cons x xs => rfl
    simp [splitWsGo, isWs, this]
  | cons a w' ih =>
    intro acc r hw hacc
    have ha : isWs a = false := hw a (List.mem_cons_self _ _)
    have hw' : ∀ c ∈ w', isWs c = false := fun c hc => hw c (List.mem_cons_of_mem _ hc)
    have step := ih (a :: acc) r hw' (by simp)
    simp only [List.cons_append, splitWsGo, ha]
    simp only [Bool.false_eq_true, if_false, List.append_eq]
    rw [step]
    simp

theorem splitWs_word_cons {b : Char} {w r : List Char}
    (h : ∀ c ∈ b :: w, isWs c = false) :
    splitWs ((b :: w) ++ ' ' :: r) = (b :: w) :: splitWs r := by
  have hb : isWs b = false := h b (List.mem_cons_self _ _)
  have hw : ∀ c ∈ w, isWs c = false := fun c hc => h c (List.mem_cons_of_mem _ hc)
  show splitWsGo [] ((b :: w) ++ ' ' :: r) = (b :: w) :: splitWsGo [] r
  simp only [List.cons_append, splitWsGo, hb, Bool.false_eq_true, if_false, List.append_eq]
  rw [splitWsGo_word w [b] r hw (by simp)]
  simp

/-! ### Lemmas about the classifier cascade -/

theorem exceptBind_ok {α β : Type} (a : α) (f : α → Except PyErr β) :
    (Except.ok a >>= f) = f a := rfl

theorem exceptBind_err {α β : Type} (e : PyErr) (f : α → Except PyErr β) :
    ((Except.error e : Except PyErr α) >>= f) = Except.error e := rfl

theorem PyAst.classifyF_nil (fuel : Nat) (s : List Char) (harg : stripReuse s = []) :
    PyAst.classifyF (fuel + 1) s = .error .indexError := by
  simp only [PyAst.classifyF, harg]
  rfl

theorem PyAst.mkCC_not_unary (a : List Char) : (PyAst.mkCC a).isUnary = false := by
  unfold PyAst.mkCC
  rcases splitOnDot a with _ | ⟨v, _ | ⟨c, r⟩⟩ <;> rfl

theorem PyAst.mkRegister_shape {a : List Char} {r : PyAst.Operand}
    (h : PyAst.mkRegister a = .ok r) : r.isUnary = false := by
  simp only [PyAst.mkRegister] at h
  split at h
  · cases h; rfl
  · split at h
    · cases h; rfl
    · cases h

theorem PyAst.mkFloat_not_unary (a : List Char) : (PyAst.mkFloat a).isUnary = false := by
  unfold PyAst.mkFloat
  split <;> rfl

theorem PyAst.mkRegAddress_shape {cl : List Char → Except PyErr PyAst.Operand}
    {t : List Char} {r : PyAst.Operand}
    (h : PyAst.mkRegAddress cl t = .ok r) : r.isUnary = false := by
  simp only [PyAst.mkRegAddress] at h
  split at h
  · rcases hb : cl ((replaceL (replaceL t '[' [] []) ']' [] []).take
        (PyAst.idxPlus (replaceL (replaceL t '[' [] []) ']' [] []))) with e | b
    all_goals rw [hb] at h
    · rw [exceptBind_err] at h; cases h
    · rw [exceptBind_ok] at h
      rcases ho : cl ((replaceL (replaceL t '[' [] []) ']' [] []).drop
          (PyAst.idxPlus (replaceL (replaceL t '[' [] []) ']' [] []) + 1)) with e | o
      all_goals rw [ho] at h
      · rw [exceptBind_err] at h; cases h
      · rw [exceptBind_ok] at h
        split at h
        · split at h
          · cases h; rfl
          · cases h
        · cases h
  · rcases hb : cl (replaceL (replaceL t '[' [] []) ']' [] []) with e | b
    all_goals rw [hb] at h
    · rw [exceptBind_err] at h; cases h
    · rw [exceptBind_ok] at h
      split at h
      · cases h; rfl
      · cases h

/-- No branch of the `ast.py` cascade other than the four unary branches can
produce a `UnaryOp`: when the (stripped) token triggers none of the unary
guards, a successful classification is never a `UnaryOp`. -/
theorem PyAst.classifyF_not_unary (fuel : Nat) (s : List Char) (r : PyAst.Operand)
    (hg : unaryGuard (stripReuse s) = false)
    (h : PyAst.classifyF (fuel + 1) s = .ok r) : r.isUnary = false := by
  rcases harg : stripReuse s with _ | ⟨c, rest⟩
  · rw [PyAst.classifyF_nil fuel s harg] at h; cases h
  rw [harg] at hg
  simp only [unaryGuard, Bool.or_eq_false_iff] at hg
  obtain ⟨hg1, ⟨⟨hga, hgb⟩, hgc⟩⟩ := hg
  rw [decide_eq_false_iff_not] at hga hgb
  simp only [PyAst.classifyF, harg] at h
  by_cases q1 : texDim (c :: rest) = true
  · rw [if_pos q1] at h; cases h; rfl
  rw [if_neg q1] at h
  by_cases q2 : texCom (c :: rest) = true
  · rw [if_pos q2] at h; cases h; rfl
  rw [if_neg q2] at h
  by_cases q3 : jcalMatch (c :: rest) = true
  · rw [if_pos q3] at h; cases h; rfl
  rw [if_neg q3] at h
  by_cases q4 : depbarMatch (c :: rest) = true
  · rw [if_pos q4] at h; cases h; rfl
  rw [if_neg q4] at h
  by_cases q5 : sregMatch (c :: rest) = true
  · rw [if_pos q5] at h; cases h; rfl
  rw [if_neg q5] at h
  rcases q6 : constMemMatch (c :: rest) with _ | ⟨g1, g2, g3⟩
  rotate_left
  · rw [q6] at h
    dsimp only at h
    rcases hb : PyAst.classifyF fuel g1 with e | b
    all_goals rw [hb] at h
    · rw [exceptBind_err] at h; cases h
    · rw [exceptBind_ok] at h
      rcases ho : PyAst.classifyF fuel g2 with e | o
      all_goals rw [ho] at h
      · rw [exceptBind_err] at h; cases h
      · rw [exceptBind_ok] at h; cases h; rfl
  rw [q6] at h
  dsimp only at h
  rw [if_neg (by rw [hg1]; simp)] at h
  rw [if_neg hga, if_neg hgb, if_neg (by rw [hgc]; simp)] at h
  by_cases q7 : leadsWith "CC".data (c :: rest) = true
  · rw [if_pos q7] at h; cases h; exact PyAst.mkCC_not_unary _
  rw [if_neg q7] at h
  by_cases q8 : c = 'R'
  · rw [if_pos q8] at h; exact PyAst.mkRegister_shape h
  rw [if_neg q8] at h
  by_cases q9 : c = 'P'
  · rw [if_pos q9] at h; cases h
  rw [if_neg q9] at h
  by_cases q10 : leadsWith "0x".data (c :: rest) = true
  · rw [if_pos q10] at h; cases h; rfl
  rw [if_neg q10] at h
  by_cases q11 : c = '{'
  · rw [if_pos q11] at h; cases h; rfl
  rw [if_neg q11] at h
  by_cases q12 : floatMatch (c :: rest) = true
  · rw [if_pos q12] at h; cases h; exact PyAst.mkFloat_not_unary _
  rw [if_neg q12] at h
  by_cases q13 : decMatch (c :: rest) = true
  · rw [if_pos q13] at h; cases h; rfl
  rw [if_neg q13] at h
  by_cases q14 : addrMatch (c :: rest) = true
  · rw [if_pos q14] at h; exact PyAst.mkRegAddress_shape h
  rw [if_neg q14] at h
  cases h

/-- A token whose stripped form is non-empty and triggers none of the
matching rules reaches the final `else` of both cascades: the result is the
`UnrecognizedOperand` failure, in `ast.py` and `sass_ast.py` alike. -/
theorem classify_unmatched (s : List Char) (hne : stripReuse s ≠ [])
    (hm : matchesSomeRule (stripReuse s) = false) :
    PyAst.classify s = .error (.unrecognized (stripReuse s)) ∧
    PySass.classify s = .error (.unrecognized (stripReuse s)) := by
  obtain ⟨c, rest, hcr⟩ : ∃ c rest, stripReuse s = c :: rest := by
    rcases h : stripReuse s with _ | ⟨c, rest⟩
    · exact absurd h hne
    · exact ⟨c, rest, rfl⟩
  rw [hcr] at hm ⊢
  simp only [matchesSomeRule, Bool.or_eq_false_iff] at hm
  obtain ⟨⟨⟨⟨⟨⟨⟨⟨⟨⟨⟨⟨h1, h2⟩, h3⟩, h4⟩, h5⟩, h6⟩, h7⟩, h8⟩, h9⟩, h10⟩, h11⟩, h12⟩, h13⟩ := hm
  obtain ⟨⟨⟨⟨⟨h8a, h8b⟩, h8c⟩, h8d⟩, h8e⟩, h8f⟩ := h8
  rw [decide_eq_false_iff_not] at h8a h8b h8d h8e h8f
  rcases hc6 : constMemMatch (c :: rest) with _ | v
  rotate_left
  · rw [hc6] at h6; simp at h6
  constructor
  · unfold PyAst.classify
    simp only [PyAst.classifyF, hcr, h1, h2, h3, h4, h5, hc6, h7, h9, h10, h11, h12, h13, h8c]
    simp [h8a, h8b, h8d, h8e, h8f]
  · unfold PySass.classify
    simp only [PySass.classifyF, hcr, h1, h2, h3, h4, h5, hc6, h7, h9, h10, h11, h12, h13, h8c]
    simp [h8a, h8b, h8d, h8e, h8f]

/-- A token of the shape `0x` followed by lower-case hexadecimal digits falls
through every earlier rule of both cascades and is classified as a
`HexImmediate` carrying the token text. -/
theorem classify_hex_aux (fuel : Nat) (ds : List Char) (hh : ∀ c ∈ ds, isLHex c = true) :
    PyAst.classifyF (fuel + 1) ('0' :: 'x' :: ds) = .ok (.hexImmediate ('0' :: 'x' :: ds)) ∧
    PySass.classifyF (fuel + 1) ('0' :: 'x' :: ds) = .ok (.hexImmediate ('0' :: 'x' :: ds)) := by
  have hdot : ('.' : Char) ∉ ('0' :: 'x' :: ds) := by
    simp only [List.mem_cons, not_or]
    exact ⟨by decide, by decide, fun hm => absurd (hh _ hm) (by decide)⟩
  have hpipe : ('|' : Char) ∉ ('0' :: 'x' :: ds) := by
    simp only [List.mem_cons, not_or]
    exact ⟨by decide, by decide, fun hm => absurd (hh _ hm) (by decide)⟩
  have hstrip := stripReuse_not_dot hdot
  have hcount : countChar ('0' :: 'x' :: ds) '|' = 0 := countChar_eq_zero hpipe
  constructor
  · simp only [PyAst.classifyF, hstrip, hcount]
    rfl
  · simp only [PySass.classifyF, hstrip, hcount]
    rfl

theorem classify_hex (ds : List Char) (hh : ∀ c ∈ ds, isLHex c = true) :
    PyAst.classify ('0' :: 'x' :: ds) = .ok (.hexImmediate ('0' :: 'x' :: ds)) ∧
    PySass.classify ('0' :: 'x' :: ds) = .ok (.hexImmediate ('0' :: 'x' :: ds)) := by
  unfold PyAst.classify PySass.classify
  exact classify_hex_aux _ ds hh
theorem isWs_of_isDigit {c : Char} (h : c.isDigit = true) : isWs c = false := by
  cases hw : isWs c
  · rfl
  · exfalso
    simp only [isWs, Bool.or_eq_true, decide_eq_true_eq] at hw
    rcases hw with ((((h1 | h1) | h1) | h1) | h1) | h1 <;> (subst h1; simp at h)

theorem ne_of_isDigit {c x : Char} (h : c.isDigit = true) (hx : x.isDigit = false) :
    ¬(c = x) := by
  intro he
  subst he
  rw [h] at hx
  cases hx

theorem not_mem_of_digits {x : Char} (hx : x.isDigit = false) {ds : List Char}
    (hds : ∀ c ∈ ds, c.isDigit = true) : x ∉ ds := by
  intro hm
  have := hds x hm
  rw [this] at hx
  cases hx

theorem stripGuard_two_digit {c₁ c₂ : Char} (h₁ : c₁.isDigit = true) (h₂ : c₂.isDigit = true)
    {rest : List Char} (hrest : '@' ∉ rest) :
    stripGuard ('@' :: 'P' :: c₁ :: c₂ :: rest) = '@' :: 'P' :: c₁ :: c₂ :: rest := by
  unfold stripGuard
  simp only [List.length_cons]
  simp only [stripGuardF]
  rw [if_neg (by simp [isWs_of_isDigit h₂])]
  have h4 : '@' ∉ (c₁ :: c₂ :: rest) := by
    simp only [List.mem_cons, not_or]
    exact ⟨Ne.symm (ne_of_isDigit h₁ (by decide)),
      Ne.symm (ne_of_isDigit h₂ (by decide)), hrest⟩
  rw [stripGuardF_no_at _ _ h4]


/-! ### The claims -/

/-- Claim C1 counterexample: `parseStatement("L_1", "@!P0 BRA L_2")` does not
return the described Statement — it fails in both modules.  In `ast.py` the
predicate-register constructor raises (read-only property `v`), which the
bare `except` converts to `ValueError("Unable to parse: ...")`; in
`sass_ast.py` the statement parse reaches `argument_to_object("L_2")`, which
matches no classifier rule and raises the unrecognized-operand `ValueError`. -/
theorem c1_counterexample :
    PyAst.Statement.ofTextS "L_1" "@!P0 BRA L_2" = .error .unableToParse ∧
    PySass.Statement.ofTextS "L_1" "@!P0 BRA L_2" = .error (.unrecognized "L_2".data) :=
  ⟨rfl, rfl⟩

/-- Claim C1 as amended: the token `L_2` matches no classifier rule, so
`parseStatement("L_1", "@!P0 BRA L_2")` fails with the unrecognized-operand
error in `sass_ast.py` (after computing mnemonic `BRA`), and fails with
`Unable to parse` in `ast.py` (predicate-register constructor bug).  With a
classifiable operand in place of `L_2` (here `0x8`), `sass_ast.py` yields
exactly the claimed structure: predicated, inverted, predicate register `P0`,
mnemonic `BRA`, and the operand classified from the token — while `ast.py`
still fails on any predicated statement. -/
theorem c1_amended_thm :
    PySass.classifyS "L_2" = .error (.unrecognized "L_2".data) ∧
    PySass.Instruction.ofTextS "@!P0 BRA L_2" = .error (.unrecognized "L_2".data) ∧
    PySass.Statement.ofTextS "L_1" "@!P0 BRA 0x8" =
      .ok ⟨"L_1".data, "@!P0 BRA 0x8".data, true, true,
        some (.predicateRegister "P0".data),
        ⟨"BRA 0x8".data, "BRA".data, [.hexImmediate "0x8".data]⟩⟩ ∧
    PyAst.Statement.ofTextS "L_1" "@!P0 BRA 0x8" = .error .unableToParse :=
  ⟨rfl, rfl, rfl, rfl⟩

/-- Claim C2 counterexample: on `"IADD.CC R1, R2, R3"` the mnemonic is the
first token `IADD.CC` with `CC` appended (because `.CC` occurs in the text),
i.e. `IADD.CCCC`, not the claimed `IADDCC`. -/
theorem c2_counterexample :
    (PyAst.Instruction.ofTextS "IADD.CC R1, R2, R3").map
      (fun i => i.sass_instruction) = .ok "IADD.CCCC".data ∧
    "IADD.CCCC".data ≠ "IADDCC".data :=
  ⟨rfl, by decide⟩

/-- Claim C2 as amended: `parseInstruction("IADD.CC R1, R2, R3")` yields
mnemonic `IADD.CCCC` (first token `IADD.CC`, suffix `CC` appended since
`.CC` occurs in the normalized text) and the operand sequence
`[Register(R1), Register(R2), Register(R3)]` in that order, in both
modules. -/
theorem c2_amended_thm :
    PyAst.Instruction.ofTextS "IADD.CC R1, R2, R3" =
      .ok ⟨"IADD.CC R1, R2, R3".data, "IADD.CCCC".data,
        [.register "R1".data none false false 1,
         .register "R2".data none false false 2,
         .register "R3".data none false false 3]⟩ ∧
    PySass.Instruction.ofTextS "IADD.CC R1, R2, R3" =
      .ok ⟨"IADD.CC R1, R2, R3".data, "IADD.CCCC".data,
        [.register "R1".data none false false,
         .register "R2".data none false false,
         .register "R3".data none false false]⟩ :=
  ⟨rfl, rfl⟩

/-- Claim C3: in `ast.py`, classifying any predicate-register token fails
with `AttributeError`, because `PredicateRegister.__init__` assigns to the
read-only property `v`; the numeric index the claim describes is exactly
what the unreachable line 170 (`numIntended`) would compute (`0` for `P0`,
`-1` for `PT`).  In `sass_ast.py` the constructor succeeds but carries no
numeric index at all. -/
theorem c3_code_bug_thm :
    PyAst.classifyS "P0" = .error .attributeError ∧
    PyAst.classifyS "PT" = .error .attributeError ∧
    PyAst.PredicateRegister.numIntended "P0".data = some 0 ∧
    PyAst.PredicateRegister.numIntended "PT".data = some (-1) ∧
    PySass.classifyS "P0" = .ok (.predicateRegister "P0".data) :=
  ⟨rfl, rfl, rfl, rfl, rfl⟩

/-- Claim C4 counterexample: on the token `P0` the two classifiers do not
behave identically — `ast.py` fails with `AttributeError` while
`sass_ast.py` returns a `PredicateRegister`. -/
theorem c4_counterexample :
    PyAst.classifyS "P0" = .error .attributeError ∧
    PySass.classifyS "P0" = .ok (.predicateRegister "P0".data) :=
  ⟨rfl, rfl⟩

/-- Claim C4 as amended: the two classifiers share one rule cascade and agree
on tokens whose constructors are identical — for every hex token
`0x<hex-digits>` both return a `HexImmediate` carrying the token text — but
they are not behaviourally identical: `ast.py`'s predicate-register (and
aspects of its register) construction diverge from `sass_ast.py`'s. -/
theorem c4_amended_thm (ds : List Char) (_hne : ds ≠ [])
    (hh : ∀ c ∈ ds, isLHex c = true) :
    PyAst.classify ('0' :: 'x' :: ds) = .ok (.hexImmediate ('0' :: 'x' :: ds)) ∧
    PySass.classify ('0' :: 'x' :: ds) = .ok (.hexImmediate ('0' :: 'x' :: ds)) :=
  classify_hex ds hh

/-- Witness for C4's amended theorem at `0x4`. -/
theorem c4_amended_thm_witness :
    PyAst.classify "0x4".data = .ok (.hexImmediate "0x4".data) ∧
    PySass.classify "0x4".data = .ok (.hexImmediate "0x4".data) :=
  c4_amended_thm ['4'] (by decide) (by decide)

/-- Claim C5 counterexample: `classify("~-R1")` succeeds and returns a
`UnaryOp` whose argument is itself a `UnaryOp` — stacked unary operators
nest, because the stripped text `-R1` again matches a unary rule. -/
theorem c5_counterexample :
    PyAst.classifyS "~-R1" =
      .ok (.unaryOp "~".data
        (.unaryOp "-".data (.register "R1".data none false false 1) false) false) ∧
    PyAst.Operand.isUnary
      (.unaryOp "-".data (.register "R1".data none false false 1) false) = true :=
  ⟨rfl, rfl⟩

/-- Claim C5 as amended: a `UnaryOp`'s argument is re-classified from the
operator-stripped text and is therefore non-unary whenever that text does not
itself trigger a unary rule; in particular, whenever the stripped token
triggers none of the unary guards, any successful classification is
non-unary.  (Stacked operators such as `~-R1` do produce nested
`UnaryOp`s.) -/
theorem c5_amended_thm (s : List Char) (r : PyAst.Operand)
    (hg : unaryGuard (stripReuse s) = false) (h : PyAst.classify s = .ok r) :
    PyAst.Operand.isUnary r = false :=
  PyAst.classifyF_not_unary s.length s r hg h

/-- Witness for C5's amended theorem at `0x4`. -/
theorem c5_amended_thm_witness :
    PyAst.Operand.isUnary (.hexImmediate "0x4".data) = false :=
  c5_amended_thm "0x4".data (.hexImmediate "0x4".data) (by rfl) (by rfl)

/-- Claim C6 counterexample: the empty token matches none of the classifier
rules, yet `classify("")` fails with an `IndexError` (from `arg[0]`), not
with the unrecognized-operand `ValueError`. -/
theorem c6_counterexample :
    matchesSomeRule "".data = false ∧
    PyAst.classifyS "" = .error .indexError ∧
    PySass.classifyS "" = .error .indexError ∧
    PyErr.indexError ≠ PyErr.unrecognized "".data :=
  ⟨rfl, rfl, rfl, by decide⟩

/-- Claim C6 as amended: every non-empty token (after `.reuse` stripping)
that matches none of the classifier rules fails with the
unrecognized-operand error carrying the token, in both modules; classify
never silently returns a default operand.  The empty token also fails,
but with an `IndexError`. -/
theorem c6_amended_thm (s : List Char) (hne : stripReuse s ≠ [])
    (hm : matchesSomeRule (stripReuse s) = false) :
    PyAst.classify s = .error (.unrecognized (stripReuse s)) ∧
    PySass.classify s = .error (.unrecognized (stripReuse s)) :=
  classify_unmatched s hne hm

/-- Witness for C6's amended theorem at `xyz`. -/
theorem c6_amended_thm_witness :
    PyAst.classify "xyz".data = .error (.unrecognized "xyz".data) ∧
    PySass.classify "xyz".data = .error (.unrecognized "xyz".data) :=
  c6_amended_thm "xyz".data (by decide) (by rfl)

/-- Claim C7 counterexample: `to_smt` does not lower-case the digits —
on `0xA` at width 32 it returns `#x0000000A`, not the claimed
`#x0000000a`. -/
theorem c7_counterexample :
    PySass.classifyS "0xA" = .ok (.hexImmediate "0xA".data) ∧
    PySass.HexImmediate.to_smt "0xA".data 32 = .ok "#x0000000A".data ∧
    "#x0000000A".data ≠ "#x0000000a".data :=
  ⟨rfl, rfl, by decide⟩

/-- Claim C7 as amended: every hex token `0x<hex-digits>` classifies as a
`HexImmediate` (both modules); `to_smt` on `0xA` returns `#x0000000A` at
width 32, `#x000A` at width 16, and a 16-hex-digit zero-padded
`#x000000000000000A` at width 64; any other width (e.g. 8) fails with
`ValueError`.  Case is preserved, not normalized. -/
theorem c7_amended_thm (ds : List Char) (_hne : ds ≠ [])
    (hh : ∀ c ∈ ds, isLHex c = true) :
    (PyAst.classify ('0' :: 'x' :: ds) = .ok (.hexImmediate ('0' :: 'x' :: ds)) ∧
     PySass.classify ('0' :: 'x' :: ds) = .ok (.hexImmediate ('0' :: 'x' :: ds))) ∧
    PySass.HexImmediate.to_smt "0xA".data 32 = .ok "#x0000000A".data ∧
    PySass.HexImmediate.to_smt "0xA".data 16 = .ok "#x000A".data ∧
    PySass.HexImmediate.to_smt "0xA".data 64 = .ok "#x000000000000000A".data ∧
    ("#x000000000000000A".data.drop 2).length = 16 ∧
    PySass.HexImmediate.to_smt "0xA".data 8 = .error .valueError :=
  ⟨classify_hex ds hh, rfl, rfl, rfl, rfl, rfl⟩

/-- Witness for C7's amended theorem at `0xa`. -/
theorem c7_amended_thm_witness :
    (PyAst.classify "0xa".data = .ok (.hexImmediate "0xa".data) ∧
     PySass.classify "0xa".data = .ok (.hexImmediate "0xa".data)) ∧
    PySass.HexImmediate.to_smt "0xA".data 32 = .ok "#x0000000A".data ∧
    PySass.HexImmediate.to_smt "0xA".data 16 = .ok "#x000A".data ∧
    PySass.HexImmediate.to_smt "0xA".data 64 = .ok "#x000000000000000A".data ∧
    ("#x000000000000000A".data.drop 2).length = 16 ∧
    PySass.HexImmediate.to_smt "0xA".data 8 = .error .valueError :=
  c7_amended_thm ['a'] (by decide) (by decide)

/-- Claim C8: `classify("[R1+0x4]")` returns a `RegAddress` with base
`Register("R1")` and offset `HexImmediate("0x4")`, and `classify("[RZ]")`
returns a `RegAddress` with base `Register("RZ")` and no offset, in both
modules (with each module's own register fields; in `ast.py` the register
also carries its numeric index, `-1` for `RZ`). -/
theorem c8_thm :
    PyAst.classifyS "[R1+0x4]" =
      .ok (.regAddress (.register "R1".data none false false 1)
        (some (.hexImmediate "0x4".data)) "R1+0x4".data) ∧
    PyAst.classifyS "[RZ]" =
      .ok (.regAddress (.register "RZ".data none false false (-1)) none "RZ".data) ∧
    PySass.classifyS "[R1+0x4]" =
      .ok (.regAddress (.register "R1".data none false false)
        (some (.hexImmediate "0x4".data)) "R1+0x4".data) ∧
    PySass.classifyS "[RZ]" =
      .ok (.regAddress (.register "RZ".data none false false) none "RZ".data) :=
  ⟨rfl, rfl, rfl, rfl⟩

/-- Claim C9: any two `CC_Register` operands compare equal under the Python
`__eq__` of either module, regardless of their base names and condition
qualifiers — the comparison is only an `isinstance` check. -/
theorem c9_thm (v₁ v₂ : List Char) (c₁ c₂ : Option (List Char)) :
    PyAst.pyEq (.ccRegister v₁ c₁) (.ccRegister v₂ c₂) = some true ∧
    PySass.pyEq (.ccRegister v₁ c₁) (.ccRegister v₂ c₂) = some true :=
  ⟨rfl, rfl⟩

/-- Claim C10 counterexample: on `"@P10 BRA 0x10"` the guard substitution
indeed leaves the text unchanged, but `parseInstruction` then fails —
`BRA` lands in an operand position and matches no classifier rule — so no
Instruction with mnemonic `@P10` is returned for this text. -/
theorem c10_counterexample :
    stripGuard "@P10 BRA 0x10".data = "@P10 BRA 0x10".data ∧
    PyAst.Instruction.ofTextS "@P10 BRA 0x10" = .error (.unrecognized "BRA".data) :=
  ⟨rfl, rfl⟩

/-- Claim C10 as amended: for every predicate guard whose register index has
two or more decimal digits, the guard-stripping substitution does not match
(it requires whitespace right after one index character), so the guard prefix
is not stripped: the guard token itself becomes the Instruction's mnemonic
and the remaining tokens become its operands — provided every remaining token
classifies (here, the operand tokens `0x4 0x8`).  When a remaining token is
not a classifiable operand (such as the intended mnemonic `BRA`),
`parseInstruction` fails instead. -/
theorem c10_amended_thm (c₁ c₂ : Char) (ds : List Char) (h₁ : c₁.isDigit = true)
    (h₂ : c₂.isDigit = true) (hds : ∀ c ∈ ds, c.isDigit = true) :
    PyAst.Instruction.ofText ('@' :: 'P' :: c₁ :: c₂ :: (ds ++ " 0x4 0x8".data)) =
      .ok ⟨'@' :: 'P' :: c₁ :: c₂ :: (ds ++ " 0x4 0x8".data),
           '@' :: 'P' :: c₁ :: c₂ :: ds,
           [.hexImmediate "0x4".data, .hexImmediate "0x8".data]⟩ := by
  have hmem : ∀ x : Char, x.isDigit = false → x ∉ " 0x4 0x8".data →
      x ≠ '@' → x ≠ 'P' → x ∉ ('@' :: 'P' :: c₁ :: c₂ :: (ds ++ " 0x4 0x8".data)) := by
    intro x hx htail hat hp hm
    rcases List.mem_cons.mp hm with rfl | hm
    · exact hat rfl
    rcases List.mem_cons.mp hm with rfl | hm
    · exact hp rfl
    rcases List.mem_cons.mp hm with he | hm
    · rw [he] at hx; rw [h₁] at hx; cases hx
    rcases List.mem_cons.mp hm with he | hm
    · rw [he] at hx; rw [h₂] at hx; cases hx
    rcases List.mem_append.mp hm with he | he
    · exact not_mem_of_digits hx hds he
    · exact htail he
  have hrb : (']' : Char) ∉ ('@' :: 'P' :: c₁ :: c₂ :: (ds ++ " 0x4 0x8".data)) :=
    hmem ']' (by decide) (by decide) (by decide) (by decide)
  have hcm : (',' : Char) ∉ ('@' :: 'P' :: c₁ :: c₂ :: (ds ++ " 0x4 0x8".data)) :=
    hmem ',' (by decide) (by decide) (by decide) (by decide)
  have hdt : ('.' : Char) ∉ ('@' :: 'P' :: c₁ :: c₂ :: (ds ++ " 0x4 0x8".data)) :=
    hmem '.' (by decide) (by decide) (by decide) (by decide)
  have hat : '@' ∉ (ds ++ " 0x4 0x8".data) := by
    intro hm
    rcases List.mem_append.mp hm with he | he
    · exact not_mem_of_digits (by decide) hds he
    · exact absurd he (by decide)
  have hwnws : ∀ c ∈ ('@' :: 'P' :: c₁ :: c₂ :: ds), isWs c = false := by
    intro c hc
    simp only [List.mem_cons] at hc
    rcases hc with rfl | rfl | he | he | hc
    · decide
    · decide
    · rw [he]; exact isWs_of_isDigit h₁
    · rw [he]; exact isWs_of_isDigit h₂
    · exact isWs_of_isDigit (hds c hc)
  have F1 : replaceL ('@' :: 'P' :: c₁ :: c₂ :: (ds ++ " 0x4 0x8".data)) ']' " [".data "][".data
      = ('@' :: 'P' :: c₁ :: c₂ :: (ds ++ " 0x4 0x8".data)) := replaceL_not_mem _ _ hrb
  have F3 : stripGuard ('@' :: 'P' :: c₁ :: c₂ :: (ds ++ " 0x4 0x8".data))
      = ('@' :: 'P' :: c₁ :: c₂ :: (ds ++ " 0x4 0x8".data)) := stripGuard_two_digit h₁ h₂ hat
  have F4 : replaceL ('@' :: 'P' :: c₁ :: c₂ :: (ds ++ " 0x4 0x8".data)) ',' " ".data " ".data
      = ('@' :: 'P' :: c₁ :: c₂ :: (ds ++ " 0x4 0x8".data)) := replaceL_not_mem _ _ hcm
  have F5 : collapseWs ('@' :: 'P' :: c₁ :: c₂ :: (ds ++ " 0x4 0x8".data))
      = ('@' :: 'P' :: c₁ :: c₂ :: (ds ++ " 0x4 0x8".data)) := by
    apply collapseWs_id
    have he : ('@' :: 'P' :: c₁ :: c₂ :: (ds ++ " 0x4 0x8".data))
        = ('@' :: 'P' :: c₁ :: c₂ :: ds) ++ " 0x4 0x8".data := by simp
    rw [he, hasWsPair_append _ _ hwnws]
    decide
  have F6 : splitWs ('@' :: 'P' :: c₁ :: c₂ :: (ds ++ " 0x4 0x8".data))
      = ('@' :: 'P' :: c₁ :: c₂ :: ds) :: ["0x4".data, "0x8".data] := by
    have he : ('@' :: 'P' :: c₁ :: c₂ :: (ds ++ " 0x4 0x8".data))
        = ('@' :: ('P' :: c₁ :: c₂ :: ds)) ++ ' ' :: "0x4 0x8".data := by simp
    rw [he, splitWs_word_cons hwnws]
    rfl
  have F7 : replaceL ('@' :: 'P' :: c₁ :: c₂ :: ds) ' ' [] []
      = ('@' :: 'P' :: c₁ :: c₂ :: ds) := by
    apply replaceL_not_mem
    intro hm
    simp only [List.mem_cons] at hm
    rcases hm with hm | hm | he | he | he
    · exact absurd hm (by decide)
    · exact absurd hm (by decide)
    · rw [← he] at h₁; exact absurd h₁ (by decide)
    · rw [← he] at h₂; exact absurd h₂ (by decide)
    · exact not_mem_of_digits (by decide) hds he
  have F9 : hasSub ('@' :: 'P' :: c₁ :: c₂ :: (ds ++ " 0x4 0x8".data)) ".CC".data = false :=
    hasSub_head_not_mem _ hdt
  have F2 : hasSub ('@' :: 'P' :: c₁ :: c₂ :: (ds ++ " 0x4 0x8".data)) "@".data = true := rfl
  simp only [PyAst.Instruction.ofText, F1, F2, if_true, F3, F4, F5, F6, F7, F9]
  rfl

/-- Witness for C10's amended theorem at index `10`. -/
theorem c10_amended_thm_witness :
    PyAst.Instruction.ofTextS "@P10 0x4 0x8" =
      .ok ⟨"@P10 0x4 0x8".data, "@P10".data,
        [.hexImmediate "0x4".data, .hexImmediate "0x8".data]⟩ :=
  c10_amended_thm '1' '0' [] (by decide) (by decide) (by decide)
